import Mathlib

/-!
Shallow embedding of the `adsync` program: a one-shot batch job that lists
all user accounts in an Active Directory OU (`listADUsers`), lists the
current members of a configured group (`listGroupUsers`), and adds every
account missing from the group (`synchronizeGroup` calling `addUserToGroup`
per missing account).  Go panics (via `writeError`) are modelled as
`Except.error`; the LDAP server is modelled as an oracle (`Directory`)
giving the outcome of each dial, bind, search and modify request; the
`defer l.Close()` at the top of each operation is modelled by the session
event trace each operation returns (a deferred close runs on both normal
return and panic unwinding, so every successful dial is followed by a
close in the trace).
-/

set_option autoImplicit false

namespace Adsync

/-- Models Go `strings.ToUpper` on ASCII identifiers: uppercase every
character of the string. -/
def toUpper (s : String) : String := ⟨s.data.map Char.toUpper⟩

/-- One attribute of an LDAP entry: its name and its list of values.
An LDAP attribute with zero values is never returned by a server, and an
entry lacking the requested attribute simply has no entry for it in
`Entry.attributes`. -/
structure Attribute where
  name : String
  values : List String
deriving DecidableEq

/-- One LDAP search-result entry: the list of attributes returned for it
(`go-ldap`'s `Entry.Attributes`). -/
structure Entry where
  attributes : List Attribute
deriving DecidableEq

/-- Oracle for the LDAP server's behaviour during one run: whether
`DialURL` and `Bind` succeed, the entry list returned by the user search
and the group search (`none` means the search call itself errors), and
whether the modify-add request for a given member value succeeds. -/
structure Directory where
  dialOk : Bool
  bindOk : Bool
  userSearch : Option (List Entry)
  groupSearch : Option (List Entry)
  modifyOk : String → Bool

/-- The fatal-error exits of the program, each raised through `writeError`
(which panics); `outOfRange` is a Go runtime index-out-of-range panic. -/
inductive LErr where
  | connectErr
  | bindErr
  | searchErr
  | emptyResult
  | outOfRange
  | modifyErr
deriving DecidableEq

/-- Session events recorded by an operation: a successful `ldap.DialURL`
(`opened`) and the deferred `l.Close()` (`closed`). -/
inductive Event where
  | opened
  | closed
deriving DecidableEq

/-- Go `x.Attributes[0].Values[0]`: the first value of the first attribute
of an entry, `none` when the index access would panic. -/
def firstValue (e : Entry) : Option String :=
  match e.attributes with
  | [] => none
  | a :: _ =>
    match a.values with
    | [] => none
    | v :: _ => some v

/-- The collection loop of `listADUsers` (lines 100-102): append
`strings.ToUpper(x.Attributes[0].Values[0])` for each entry, panicking
(`outOfRange`) at the first entry where the index access would fail. -/
def collectDNs : List Entry → Except LErr (List String)
  | [] => .ok []
  | e :: es =>
    match firstValue e with
    | none => .error .outOfRange
    | some v =>
      match collectDNs es with
      | .error err => .error err
      | .ok vs => .ok (toUpper v :: vs)

/-- `listADUsers` (part_000 lines 78-108): dial, deferred close, bind,
single-level search for user entries, then either collect the uppercased
first-attribute values or raise the fatal empty-result error when the
search returned zero entries.  Returns the result together with the
session event trace. -/
def listADUsers (d : Directory) : Except LErr (List String) × List Event :=
  if d.dialOk then
    let body : Except LErr (List String) :=
      if d.bindOk then
        match d.userSearch with
        | none => .error .searchErr
        | some entries =>
          if entries.length > 0 then collectDNs entries
          else .error .emptyResult
      else .error .bindErr
    (body, [Event.opened, Event.closed])
  else (.error .connectErr, [])

/-- `listGroupUsers` (part_000 lines 111-137): dial, deferred close, bind,
search for the group, then iterate `result.Entries[0].Attributes[0].Values`
uppercasing each value.  The index accesses `Entries[0]` and
`Attributes[0]` are unguarded in the source and panic (`outOfRange`) when
the search returned no entry or the entry has no attribute. -/
def listGroupUsers (d : Directory) : Except LErr (List String) × List Event :=
  if d.dialOk then
    let body : Except LErr (List String) :=
      if d.bindOk then
        match d.groupSearch with
        | none => .error .searchErr
        | some entries =>
          match entries with
          | [] => .error .outOfRange
          | e :: _ =>
            match e.attributes with
            | [] => .error .outOfRange
            | a :: _ => .ok (a.values.map toUpper)
      else .error .bindErr
    (body, [Event.opened, Event.closed])
  else (.error .connectErr, [])

/-- `addUserToGroup` (part_000 lines 157-179): dial, deferred close, bind,
then a single modify-add of `name` to the group's member attribute. -/
def addUserToGroup (d : Directory) (name : String) : Except LErr Unit × List Event :=
  if d.dialOk then
    let body : Except LErr Unit :=
      if d.bindOk then
        if d.modifyOk name then .ok () else .error .modifyErr
      else .error .bindErr
    (body, [Event.opened, Event.closed])
  else (.error .connectErr, [])

/-- The inner membership loop of `synchronizeGroup` (lines 142-148):
linear scan setting `found` on the first exact string match. -/
def memberScan (x : String) : List String → Bool
  | [] => false
  | y :: ys => if x = y then true else memberScan x ys

/-- `synchronizeGroup` (part_000 lines 140-154): for each account in
`adUsers`, scan `groupUsers` and call `addUserToGroup` when not found; a
failing call panics, aborting the run there.  Returns the final result
together with the sequence of identifiers passed to the provisioner, in
call order. -/
def synchronizeGroup (d : Directory) (adUsers groupUsers : List String) :
    Except LErr Unit × List String :=
  match adUsers with
  | [] => (.ok (), [])
  | x :: rest =>
    if memberScan x groupUsers then synchronizeGroup d rest groupUsers
    else
      match (addUserToGroup d x).1 with
      | .error e => (.error e, [x])
      | .ok _ =>
        let p := synchronizeGroup d rest groupUsers
        (p.1, x :: p.2)

/-- The phases of `main` after configuration loading (lines 56-61). -/
inductive Phase where
  | listAD
  | listGroup
  | sync
deriving DecidableEq

/-- The directory phase of `main` (part_000 lines 56-61): run
`listADUsers`, then `listGroupUsers`, then `synchronizeGroup`, each panic
aborting the run immediately.  Returns the final result, the list of
phases that began executing, and the provisioning call sequence. -/
def mainRun (d : Directory) : Except LErr Unit × List Phase × List String :=
  match (listADUsers d).1 with
  | .error e => (.error e, [Phase.listAD], [])
  | .ok adUsers =>
    match (listGroupUsers d).1 with
    | .error e => (.error e, [Phase.listAD, Phase.listGroup], [])
    | .ok groupUsers =>
      let p := synchronizeGroup d adUsers groupUsers
      (p.1, [Phase.listAD, Phase.listGroup, Phase.sync], p.2)

/-- The accounts of `A` missing from `G`: the set difference the
synchronizer is specified to provision, in `A`'s iteration order. -/
def missing (A G : List String) : List String :=
  A.filter (fun a => !(memberScan a G))

/-- The provisioning loop of `synchronizeGroup` restricted to a
precomputed list of missing accounts: attempt each in order, aborting at
the first failing `addUserToGroup` call. -/
def runAdds (d : Directory) : List String → Except LErr Unit × List String
  | [] => (.ok (), [])
  | x :: rest =>
    match (addUserToGroup d x).1 with
    | .error e => (.error e, [x])
    | .ok _ =>
      let p := runAdds d rest
      (p.1, x :: p.2)

/-- A well-formed session trace of one operation: either no session was
opened (the dial itself failed) or the one session opened was closed
before the operation returned. -/
def sessionClosed (evs : List Event) : Prop :=
  evs = [] ∨ evs = [Event.opened, Event.closed]

/-- A configuration value as viper stores it: a string or a boolean. -/
inductive CVal where
  | str (s : String)
  | bool (b : Bool)
deriving DecidableEq

/-- First-match lookup of a key in an association list of settings. -/
def lookupKey : List (String × CVal) → String → Option CVal
  | [], _ => none
  | kv :: rest, key => if kv.1 = key then some kv.2 else lookupKey rest key

/-- The defaults registered by `main` (part_000 lines 30-32) via
`viper.SetDefault`. -/
def defaults : List (String × CVal) :=
  [("logging.enabled", CVal.bool false),
   ("logging.location", CVal.str "."),
   ("activedirectory.host", CVal.str "127.0.0.1")]

/-- Viper's lookup semantics: an explicit setting from the config file
wins; otherwise the registered default, if any, is used. -/
def viperGet (settings : List (String × CVal)) (key : String) : Option CVal :=
  match lookupKey settings key with
  | some v => some v
  | none => lookupKey defaults key

/-- A string-typed key as `viper.Unmarshal` fills it: the configured or
default value, or Go's zero value `""` when the key is absent. -/
def getStr (settings : List (String × CVal)) (key : String) : String :=
  match viperGet settings key with
  | some (CVal.str s) => s
  | _ => ""

/-- A boolean-typed key as `viper.Unmarshal` fills it: the configured or
default value, or Go's zero value `false` when the key is absent. -/
def getBool (settings : List (String × CVal)) (key : String) : Bool :=
  match viperGet settings key with
  | some (CVal.bool b) => b
  | _ => false

/-- The `Configuration` struct of configuration.go, flattened. -/
structure Configuration where
  host : String
  domain : String
  username : String
  password : String
  userDN : String
  groupDN : String
  group : String
  loggingEnabled : Bool
  loggingLocation : String
deriving DecidableEq

/-- The possible states of the configuration file `config.json`:
unreadable (missing), unparsable (corrupt), or well-formed with a list of
settings. -/
inductive ConfigSource where
  | unreadable
  | unparsable
  | wellFormed (settings : List (String × CVal))

/-- The fatal startup panics of `main` (part_000 lines 34-42). -/
inductive StartupErr where
  | readErr
  | corrupt
deriving DecidableEq

/-- The configuration-loading phase of `main` (part_000 lines 26-42):
`viper.ReadInConfig` panics on an unreadable file, `viper.Unmarshal`
panics on a corrupt one, and otherwise the `Configuration` struct is
filled from settings merged over the registered defaults. -/
def loadConfig : ConfigSource → Except StartupErr Configuration
  | .unreadable => .error .readErr
  | .unparsable => .error .corrupt
  | .wellFormed s =>
      .ok (Configuration.mk
        (getStr s "activedirectory.host")
        (getStr s "activedirectory.domain")
        (getStr s "activedirectory.username")
        (getStr s "activedirectory.password")
        (getStr s "activedirectory.userdn")
        (getStr s "activedirectory.groupdn")
        (getStr s "activedirectory.group")
        (getBool s "logging.enabled")
        (getStr s "logging.location"))

/-- An LDAP oracle with every request succeeding and an empty user search
result, used to instantiate theorems at concrete inputs. -/
def dAllOk : Directory :=
  Directory.mk true true (some []) (some []) (fun _ => true)

/-- An LDAP oracle whose modify request fails exactly for member "B2",
used to instantiate the failure-abort theorem. -/
def dFailB2 : Directory :=
  Directory.mk true true (some []) (some []) (fun s => !(s == "B2"))

/-- An LDAP oracle where every request fails, used to instantiate
idempotence: the second run makes no call at all, so it succeeds even
against a dead server. -/
def dDead : Directory :=
  Directory.mk false false none none (fun _ => false)

/-- An LDAP oracle returning one user entry with raw value "cn=Alice" and
one group entry whose member attribute holds the raw value "cn=alice",
the two differing only in letter case. -/
def dCase : Directory :=
  Directory.mk true true
    (some [Entry.mk [Attribute.mk "distinguishedName" ["cn=Alice"]]])
    (some [Entry.mk [Attribute.mk "member" ["cn=alice"]]])
    (fun _ => true)

end Adsync

namespace Adsync

theorem memberScan_iff (x : String) (l : List String) : memberScan x l = true ↔ x ∈ l := by
  induction l with
  | nil => simp [memberScan]
  | cons y ys ih =>
    rw [memberScan]
    by_cases h : x = y
    · simp [h]
    · simp [h, ih]

theorem missing_cons_mem (x : String) (rest G : List String) (h : memberScan x G = true) :
    missing (x :: rest) G = missing rest G := by
  simp [missing, List.filter, h]

theorem missing_cons_notMem (x : String) (rest G : List String) (h : memberScan x G = false) :
    missing (x :: rest) G = x :: missing rest G := by
  simp [missing, List.filter, h]

theorem sync_eq_runAdds (d : Directory) (A G : List String) :
    synchronizeGroup d A G = runAdds d (missing A G) := by
  induction A with
  | nil => rfl
  | cons x rest ih =>
    cases h : memberScan x G with
    | true => rw [synchronizeGroup, if_pos h, ih, missing_cons_mem x rest G h]
    | false =>
      rw [synchronizeGroup, if_neg (by simp [h]), missing_cons_notMem x rest G h, runAdds, ih]

theorem runAdds_ok (d : Directory) (l : List String) (h : (runAdds d l).1 = .ok ()) :
    (runAdds d l).2 = l := by
  induction l with
  | nil => rfl
  | cons x rest ih =>
    rw [runAdds] at h ⊢
    cases hx : (addUserToGroup d x).1 with
    | error e => rw [hx] at h; exact absurd h (by simp)
    | ok _ =>
      rw [hx] at h
      simp at h ⊢
      exact ih h

theorem runAdds_all_ok (d : Directory) (l : List String)
    (hd : d.dialOk = true) (hb : d.bindOk = true) (hm : ∀ x ∈ l, d.modifyOk x = true) :
    runAdds d l = (.ok (), l) := by
  induction l with
  | nil => rfl
  | cons x rest ih =>
    have hx : (addUserToGroup d x).1 = .ok () := by
      simp [addUserToGroup, hd, hb, hm x (List.mem_cons_self x rest)]
    rw [runAdds, hx, ih (fun z hz => hm z (List.mem_cons_of_mem x hz))]

theorem runAdds_sub (d : Directory) (l : List String) (x : String)
    (h : x ∈ (runAdds d l).2) : x ∈ l := by
  induction l with
  | nil => simp [runAdds] at h
  | cons y rest ih =>
    rw [runAdds] at h
    cases hy : (addUserToGroup d y).1 with
    | error e => rw [hy] at h; simp at h; simp [h]
    | ok _ =>
      rw [hy] at h
      simp at h
      rcases h with h | h
      · simp [h]
      · exact List.mem_cons_of_mem y (ih h)

theorem runAdds_fail (d : Directory) (p q : List String) (x : String)
    (hd : d.dialOk = true) (hb : d.bindOk = true)
    (hp : ∀ y ∈ p, d.modifyOk y = true) (hx : d.modifyOk x = false) :
    runAdds d (p ++ x :: q) = (.error .modifyErr, p ++ [x]) := by
  induction p with
  | nil =>
    have h1 : (addUserToGroup d x).1 = .error .modifyErr := by
      simp [addUserToGroup, hd, hb, hx]
    simp [runAdds, h1]
  | cons y p' ih =>
    have hy : (addUserToGroup d y).1 = .ok () := by
      simp [addUserToGroup, hd, hb, hp y (List.mem_cons_self y p')]
    rw [List.cons_append, runAdds, hy, ih (fun z hz => hp z (List.mem_cons_of_mem y hz))]
    rfl

theorem mem_missing (A G : List String) (x : String) (h : x ∈ missing A G) :
    x ∈ A ∧ memberScan x G = false := by
  have h2 := List.mem_filter.mp h
  exact ⟨h2.1, by simpa using h2.2⟩

theorem sync_calls_sub (d : Directory) (A G : List String) (x : String)
    (h : x ∈ (synchronizeGroup d A G).2) : x ∈ A ∧ memberScan x G = false := by
  rw [sync_eq_runAdds] at h
  exact mem_missing A G x (runAdds_sub d (missing A G) x h)

theorem collectDNs_ok (es : List Entry) (l : List String) (h : collectDNs es = .ok l) :
    l = (es.filterMap firstValue).map toUpper := by
  induction es generalizing l with
  | nil =>
    rw [collectDNs] at h
    simp at h
    simp [h]
  | cons e es ih =>
    rw [collectDNs] at h
    cases hf : firstValue e with
    | none => rw [hf] at h; exact absurd h (by simp)
    | some v =>
      rw [hf] at h
      cases hc : collectDNs es with
      | error err => rw [hc] at h; exact absurd h (by simp)
      | ok vs =>
        rw [hc] at h
        simp at h
        simp [List.filterMap_cons, hf, ← h, ih vs hc]

/-- Claim C1: with every directory request succeeding, the synchronizer
invokes the Group Provisioner exactly on the set difference `A \ G`,
membership decided by exact string equality after uppercasing (the
identifiers the listers hand it are uppercase-normalized), and never on
any identifier that is an element of `G`. -/
theorem sync_calls_exactly_set_difference (d : Directory) (A G : List String)
    (hd : d.dialOk = true) (hb : d.bindOk = true) (hm : ∀ x, d.modifyOk x = true)
    (hA : ∀ a ∈ A, toUpper a = a) (hG : ∀ g ∈ G, toUpper g = g) :
    (synchronizeGroup d A G).2
        = A.filter (fun a => decide (∀ g ∈ G, toUpper a ≠ toUpper g))
      ∧ ∀ g ∈ G, g ∉ (synchronizeGroup d A G).2 := by
  constructor
  · rw [sync_eq_runAdds, runAdds_all_ok d (missing A G) hd hb (fun x _ => hm x)]
    apply List.filter_congr
    intro a ha
    have hua := hA a ha
    cases hmem : memberScan a G with
    | true =>
      have h1 : a ∈ G := (memberScan_iff a G).mp hmem
      simp only [hmem, Bool.not_true]
      symm
      simp only [decide_eq_false_iff_not, not_forall]
      exact ⟨a, h1, by simp [hua, hG a h1]⟩
    | false =>
      have h1 : a ∉ G := fun hm2 => by simp [(memberScan_iff a G).mpr hm2] at hmem
      simp only [hmem, Bool.not_false]
      symm
      simp only [decide_eq_true_iff]
      intro g hg he
      rw [hua, hG g hg] at he
      exact h1 (he ▸ hg)
  · intro g hg hcall
    have h2 := (sync_calls_sub d A G g hcall).2
    rw [(memberScan_iff g G).mpr hg] at h2
    cases h2

/-- Claim C1 instantiated at Scenario 1's inputs with an all-succeeding
directory oracle. -/
theorem sync_calls_exactly_set_difference_inst :
    (synchronizeGroup dAllOk ["ALICE", "BOB", "CARL"] ["BOB"]).2
        = List.filter (fun a => decide (∀ g ∈ ["BOB"], toUpper a ≠ toUpper g))
            ["ALICE", "BOB", "CARL"]
      ∧ "BOB" ∉ (synchronizeGroup dAllOk ["ALICE", "BOB", "CARL"] ["BOB"]).2 :=
  ⟨(sync_calls_exactly_set_difference dAllOk ["ALICE", "BOB", "CARL"] ["BOB"]
      rfl rfl (fun _ => rfl) (by decide) (by decide)).1,
   (sync_calls_exactly_set_difference dAllOk ["ALICE", "BOB", "CARL"] ["BOB"]
      rfl rfl (fun _ => rfl) (by decide) (by decide)).2 "BOB" (by decide)⟩

/-- Claim C2: with every provisioning call succeeding, the sequence of
identifiers passed to the Group Provisioner is exactly the subsequence of
`A` of elements not in `G` (exact string equality), in `A`'s iteration
order — duplicates in `A` missing from `G` each trigger their own call. -/
theorem sync_calls_in_order (d : Directory) (A G : List String)
    (hd : d.dialOk = true) (hb : d.bindOk = true) (hm : ∀ x, d.modifyOk x = true) :
    (synchronizeGroup d A G).2 = A.filter (fun a => decide (a ∉ G)) := by
  rw [sync_eq_runAdds, runAdds_all_ok d (missing A G) hd hb (fun x _ => hm x)]
  apply List.filter_congr
  intro a _
  cases hmem : memberScan a G with
  | true => simp [(memberScan_iff a G).mp hmem]
  | false =>
    have h1 : a ∉ G := fun hm2 => by simp [(memberScan_iff a G).mpr hm2] at hmem
    simp [h1]

/-- Claim C2 instantiated at Scenario 1: the provisioner is called with
"ALICE" then "CARL", in that order. -/
theorem sync_calls_in_order_inst :
    (synchronizeGroup dAllOk ["ALICE", "BOB", "CARL"] ["BOB"]).2 = ["ALICE", "CARL"] :=
  (sync_calls_in_order dAllOk ["ALICE", "BOB", "CARL"] ["BOB"]
    rfl rfl (fun _ => rfl)).trans (by decide)

/-- Claim C3 (code bug): on a matched group entry carrying no membership
attribute (a group with zero current members), `listGroupUsers` does not
yield an empty Group Member Set — the unguarded `Attributes[0]` access
panics with an index-out-of-range error. -/
theorem listGroupUsers_no_member_attribute_panics :
    (listGroupUsers (Directory.mk true true (some []) (some [Entry.mk []]) (fun _ => true))).1
      = .error .outOfRange :=
  rfl

/-- Claim C4: every Account Identifier placed into the Account Set and
every value placed into the Group Member Set is uppercased at collection
time, so an identifier differing only in letter case between the two raw
value sets is treated as already a member and triggers no provisioning
call. -/
theorem collection_uppercases (d : Directory) (es rest : List Entry) (e : Entry)
    (attr : Attribute) (ats : List Attribute)
    (hd : d.dialOk = true) (hb : d.bindOk = true)
    (hus : d.userSearch = some es)
    (hgs : d.groupSearch = some (e :: rest)) (hea : e.attributes = attr :: ats) :
    (∀ l, (listADUsers d).1 = .ok l → l = (es.filterMap firstValue).map toUpper)
      ∧ (listGroupUsers d).1 = .ok (attr.values.map toUpper)
      ∧ ∀ a g A G, a ∈ es.filterMap firstValue → g ∈ attr.values →
          toUpper a = toUpper g →
          (listADUsers d).1 = .ok A → (listGroupUsers d).1 = .ok G →
          toUpper a ∉ (synchronizeGroup d A G).2 := by
  have hgu : (listGroupUsers d).1 = .ok (attr.values.map toUpper) := by
    simp [listGroupUsers, hd, hb, hgs, hea]
  refine ⟨?_, hgu, ?_⟩
  · intro l hl
    simp only [listADUsers, hd, hb, hus, if_true] at hl
    rcases Nat.lt_or_ge 0 es.length with hlen | hlen
    · rw [if_pos hlen] at hl
      exact collectDNs_ok es l hl
    · rw [if_neg (Nat.not_lt.mpr hlen)] at hl
      exact absurd hl (by simp)
  · intro a g A G _ hg hcase _ hG hcall
    have h2 := sync_calls_sub d A G (toUpper a) hcall
    have hGl : G = attr.values.map toUpper := by
      rw [hgu] at hG
      exact (Except.ok.inj hG).symm
    have hmem : toUpper a ∈ G := by
      rw [hGl, hcase]
      exact List.mem_map_of_mem toUpper hg
    rw [(memberScan_iff (toUpper a) G).mpr hmem] at h2
    exact absurd h2.2 (by simp)

/-- Claim C4 instantiated: the raw directory values "cn=Alice" and
"cn=alice" differ only in case; both collect to "CN=ALICE" and the
synchronizer makes no call for it. -/
theorem collection_uppercases_inst :
    toUpper "cn=Alice" ∉ (synchronizeGroup dCase ["CN=ALICE"] ["CN=ALICE"]).2 :=
  (collection_uppercases dCase [Entry.mk [Attribute.mk "distinguishedName" ["cn=Alice"]]] []
      (Entry.mk [Attribute.mk "member" ["cn=alice"]]) (Attribute.mk "member" ["cn=alice"]) []
      rfl rfl rfl rfl rfl).2.2 "cn=Alice" "cn=alice" ["CN=ALICE"] ["CN=ALICE"]
    (by decide) (by decide) (by decide) rfl rfl

/-- Claim C5: a zero-entry account search raises the fatal empty-result
error inside the Account Lister, so the run aborts before the Group
Member Lister or the synchronizer ever begins: no provisioning call is
made. -/
theorem empty_account_search_aborts (d : Directory)
    (hd : d.dialOk = true) (hb : d.bindOk = true) (hs : d.userSearch = some []) :
    (mainRun d).1 = .error .emptyResult
      ∧ (mainRun d).2.1 = [Phase.listAD]
      ∧ Phase.listGroup ∉ (mainRun d).2.1
      ∧ Phase.sync ∉ (mainRun d).2.1
      ∧ (mainRun d).2.2 = [] := by
  have h1 : (listADUsers d).1 = .error .emptyResult := by
    simp [listADUsers, hd, hb, hs]
  refine ⟨?_, ?_, ?_, ?_, ?_⟩ <;> simp [mainRun, h1]

/-- Claim C5 instantiated at a directory whose account search returns
zero entries. -/
theorem empty_account_search_aborts_inst :
    (mainRun dAllOk).1 = .error .emptyResult
      ∧ (mainRun dAllOk).2.1 = [Phase.listAD]
      ∧ Phase.listGroup ∉ (mainRun dAllOk).2.1
      ∧ Phase.sync ∉ (mainRun dAllOk).2.1
      ∧ (mainRun dAllOk).2.2 = [] :=
  empty_account_search_aborts dAllOk rfl rfl rfl

/-- Claim C6: when the provisioning call for account `x` of the missing
sequence fails, the run aborts there — the accounts before `x` were each
attempted, `x` was attempted, and no account after `x` in the iteration
order is ever passed to the provisioner. -/
theorem provision_failure_aborts (d : Directory) (A G p q : List String) (x : String)
    (hd : d.dialOk = true) (hb : d.bindOk = true)
    (hsplit : missing A G = p ++ x :: q)
    (hp : ∀ y ∈ p, d.modifyOk y = true) (hx : d.modifyOk x = false) :
    (synchronizeGroup d A G).1 = .error .modifyErr
      ∧ (synchronizeGroup d A G).2 = p ++ [x] := by
  rw [sync_eq_runAdds, hsplit, runAdds_fail d p q x hd hb hp hx]
  exact ⟨rfl, rfl⟩

/-- Claim C6 instantiated at Scenario 5: three missing accounts, the
modify for the second fails, and the third is never attempted. -/
theorem provision_failure_aborts_inst :
    (synchronizeGroup dFailB2 ["B1", "B2", "B3"] []).1 = .error .modifyErr
      ∧ (synchronizeGroup dFailB2 ["B1", "B2", "B3"] []).2 = ["B1"] ++ ["B2"] :=
  provision_failure_aborts dFailB2 ["B1", "B2", "B3"] [] ["B1"] ["B3"] "B2"
    rfl rfl (by decide) (by decide) (by decide)

/-- Claim C7: idempotence — when a run of the synchronizer on `A` and `G`
fully succeeds, a second run on `A` against the group extended by the
provisioned members makes zero provisioning calls, whatever the second
run's directory does. -/
theorem sync_idempotent (d d2 : Directory) (A G : List String)
    (h : (synchronizeGroup d A G).1 = .ok ()) :
    (synchronizeGroup d2 A (G ++ (synchronizeGroup d A G).2)).2 = [] := by
  have hc : (synchronizeGroup d A G).2 = missing A G := by
    rw [sync_eq_runAdds] at h ⊢
    exact runAdds_ok d (missing A G) h
  rw [hc, sync_eq_runAdds]
  have hnil : missing A (G ++ missing A G) = [] := by
    apply List.filter_eq_nil_iff.mpr
    intro a ha
    have hmem : memberScan a (G ++ missing A G) = true := by
      apply (memberScan_iff _ _).mpr
      rw [List.mem_append]
      cases hm : memberScan a G with
      | true => exact Or.inl ((memberScan_iff a G).mp hm)
      | false => exact Or.inr (List.mem_filter.mpr ⟨ha, by simp [hm]⟩)
    simp [hmem]
  rw [hnil]
  rfl

/-- Claim C7 instantiated: after a successful run on A = [ALICE, BOB],
G = [BOB], the second run makes no call — even against a dead server. -/
theorem sync_idempotent_inst :
    (synchronizeGroup dDead ["ALICE", "BOB"]
        (["BOB"] ++ (synchronizeGroup dAllOk ["ALICE", "BOB"] ["BOB"]).2)).2 = [] :=
  sync_idempotent dAllOk dDead ["ALICE", "BOB"] ["BOB"] rfl

/-- Claim C8: the Group Member Lister builds the member set from the
first entry returned by the group search only — its entire outcome is
unchanged when the remaining matching entries are replaced by any
others. -/
theorem listGroupUsers_first_entry_only (d : Directory) (e : Entry) (r1 r2 : List Entry) :
    listGroupUsers (Directory.mk d.dialOk d.bindOk d.userSearch (some (e :: r1)) d.modifyOk)
      = listGroupUsers
          (Directory.mk d.dialOk d.bindOk d.userSearch (some (e :: r2)) d.modifyOk) := by
  cases hd : d.dialOk <;> cases hb : d.bindOk <;> simp [listGroupUsers]

/-- Claim C9: in each of the Account Lister, the Group Member Lister and
the Group Provisioner, every directory session successfully opened is
closed before the operation returns, on the success path and on every
fatal-error path (the deferred close runs during panic unwinding too). -/
theorem sessions_always_closed (d : Directory) (name : String) :
    sessionClosed (listADUsers d).2 ∧ sessionClosed (listGroupUsers d).2
      ∧ sessionClosed (addUserToGroup d name).2 := by
  cases hd : d.dialOk <;>
    simp [listADUsers, listGroupUsers, addUserToGroup, sessionClosed, hd]

/-- Claim C10: a present, well-formed configuration file that omits the
activedirectory.host key is not fatal — startup proceeds with the default
host 127.0.0.1, and likewise logging.enabled defaults to false and
logging.location to the current directory; only an unreadable or
unparsable file is fatal at startup. -/
theorem absent_keys_use_defaults (s : List (String × CVal))
    (hh : lookupKey s "activedirectory.host" = none)
    (he : lookupKey s "logging.enabled" = none)
    (hl : lookupKey s "logging.location" = none) :
    (∃ c, loadConfig (ConfigSource.wellFormed s) = .ok c
        ∧ c.host = "127.0.0.1" ∧ c.loggingEnabled = false ∧ c.loggingLocation = ".")
      ∧ loadConfig ConfigSource.unreadable = .error .readErr
      ∧ loadConfig ConfigSource.unparsable = .error .corrupt := by
  refine ⟨⟨_, rfl, ?_, ?_, ?_⟩, rfl, rfl⟩
  · show getStr s "activedirectory.host" = "127.0.0.1"
    simp [getStr, viperGet, hh, lookupKey, defaults]
  · show getBool s "logging.enabled" = false
    simp [getBool, viperGet, he, lookupKey, defaults]
  · show getStr s "logging.location" = "."
    simp [getStr, viperGet, hl, lookupKey, defaults]

/-- Claim C10 instantiated at a configuration file holding only the
domain key. -/
theorem absent_keys_use_defaults_inst :
    (∃ c, loadConfig (ConfigSource.wellFormed [("activedirectory.domain", CVal.str "CORP")])
          = .ok c
        ∧ c.host = "127.0.0.1" ∧ c.loggingEnabled = false ∧ c.loggingLocation = ".")
      ∧ loadConfig ConfigSource.unreadable = .error .readErr
      ∧ loadConfig ConfigSource.unparsable = .error .corrupt :=
  absent_keys_use_defaults [("activedirectory.domain", CVal.str "CORP")] rfl rfl rfl

end Adsync
